import Mathlib

/-!
Verification development for the lake-model experiment script
(`assignment 2 - lakemodel.py`).  The script's own code — the `process_p`
aggregation and the EMA-workbench registrations of uncertainties, levers,
outcomes and constants — is embedded directly from the source.  The imported
simulation core `lakemodel_function.lake_problem` is not part of this
repository's sources, so it is modelled from the specification where a claim
needs it; each such definition carries a doc comment saying so.

All numeric values are embedded as exact rationals (ℚ); the script's arrays
are rectangular, so two-dimensional numpy arrays are embedded as lists of
equal-length rows (rows = replications, columns = time steps).
-/

namespace LakeModel

/-! ## Embedding of `process_p` (source lines 126–129)

```
def process_p(values):
    values = np.asarray(values)
    values = np.mean(values, axis=0)
    return np.max(values)
```
`np.asarray` is the identity on an already rectangular nested list, so it is
not given a separate definition. -/

/-- Embedding of `np.mean(values, axis=0)` on a rectangular array: the list of
per-column means, column `t` being the sum of the rows' entries at position
`t` divided by the number of rows. -/
def np_mean_axis0 (values : List (List ℚ)) : List ℚ :=
  (List.range (values.headD []).length).map
    (fun t => (values.map (fun r => r.getD t 0)).sum / (values.length : ℚ))

/-- Embedding of `np.max` on a one-dimensional array.  `np.max` is undefined
(raises) on an empty array; the `[]` case is given the junk value `0` and all
claims assume a non-empty input. -/
def np_max : List ℚ → ℚ
  | [] => 0
  | x :: xs => xs.foldl max x

/-- Embedding of the source's `process_p`: mean over the replication axis
(axis 0), then maximum over the resulting averaged trajectory. -/
def process_p (values : List (List ℚ)) : ℚ :=
  np_max (np_mean_axis0 values)

/-- The mean over replications (rows) of the entries in column `t`: the
quantity "mean over replications of values[.,t]" that the claims about
`process_p` refer to. -/
def colMean (values : List (List ℚ)) (t : ℕ) : ℚ :=
  (values.map (fun r => r.getD t 0)).sum / (values.length : ℚ)

/-- The rival aggregation that `process_p` is claimed not to be: the mean of
the per-replication (per-row) maxima. -/
def avg_of_row_maxima (values : List (List ℚ)) : ℚ :=
  (values.map np_max).sum / (values.length : ℚ)

/-! ## Embedding of the EMA-workbench registrations (source lines 110–143)

Only the data the script supplies to the framework is embedded: a
`RealParameter` is a name with rational lower and upper bounds, a
`ScalarOutcome` is a name with an optional explicit binding (the script never
supplies one, so the field defaults to `none`, and the framework then binds
the outcome to the model-function output field of the same name), and a
`Constant` is a name with a rational value. -/

structure RealParameter where
  name : String
  lower : ℚ
  upper : ℚ
deriving DecidableEq, Repr

structure ScalarOutcome where
  name : String
  variable_name : Option String := none
deriving DecidableEq, Repr

/-- The model output field an outcome is bound to: the explicit
`variable_name` when one is given, the outcome's own name otherwise (the
framework's default binding rule). -/
def ScalarOutcome.boundField (o : ScalarOutcome) : String :=
  o.variable_name.getD o.name

structure Constant where
  name : String
  value : ℚ
deriving DecidableEq, Repr

/-- Embedding of the `model.uncertainties = [...]` assignment
(source lines 112–116). -/
def model_uncertainties : List RealParameter :=
  [⟨"mean", 0.01, 0.05⟩,
   ⟨"stdev", 0.001, 0.005⟩,
   ⟨"b", 0.1, 0.45⟩,
   ⟨"q", 2, 4.5⟩,
   ⟨"delta", 0.93, 0.99⟩]

/-- Embedding of the `model.levers = [...]` assignment
(source lines 121–125). -/
def model_levers : List RealParameter :=
  [⟨"c1", -2, 2⟩,
   ⟨"c2", -2, 2⟩,
   ⟨"r1", 0, 2⟩,
   ⟨"r2", 0, 2⟩,
   ⟨"w1", 0, 1⟩]

/-- Embedding of the `model.outcomes = [...]` assignment
(source lines 132–136): four `ScalarOutcome`s, created with a name only. -/
def model_outcomes : List ScalarOutcome :=
  [⟨"max_P", none⟩,
   ⟨"utility", none⟩,
   ⟨"inertia", none⟩,
   ⟨"reliability", none⟩]

/-- Embedding of the `model.constants = [...]` assignment
(source lines 140–143). -/
def model_constants : List Constant :=
  [⟨"alpha", 0.41⟩,
   ⟨"nsamples", 150⟩]

/-! ## Spec-modelled lake dynamics core

Modelled from the spec: the simulation core `lake_problem` lives in
`lakemodel_function.py`, which is imported by the script but is not among
this repository's source files.  The definitions below follow spec §4.1.
Arithmetic is over ℚ, so three ingredients that are not expressible in exact
rational arithmetic are handled as follows, none of which affects the claims
verified against this model (determinism and range invariants):

* the recycling exponent `q` is modelled as a natural number (the spec range
  [2, 4.5] contains the integers 2, 3, 4; an irrational power has no exact
  rational value);
* `X_crit`, the positive root of the equilibrium condition, is obtained by a
  numeric root-finder in the missing file and enters the outcomes only
  through the indicator `X_t < X_crit`; it is taken as an explicit parameter;
* the log-normal inflow draw involves `exp`; the draw is modelled as a
  deterministic rational function of a linear-congruential generator state,
  which preserves exactly the property the claims use — the noise sequence is
  a pure function of the seed.

The release rule's closed form is an open question in the spec (§9), which
requires only that it be a deterministic function of the lever coefficients
and the trajectory so far; it is therefore a function parameter `rule`,
applied to the levers and the history and then clipped to [0, 0.1]
(spec §4.1 step 2c). -/

/-- Uncertain factors of one scenario (spec §3). -/
structure Uncertainties where
  mean : ℚ
  stdev : ℚ
  b : ℚ
  q : ℕ
  delta : ℚ

/-- Decision levers of one policy (spec §3). -/
structure Levers where
  c1 : ℚ
  c2 : ℚ
  r1 : ℚ
  r2 : ℚ
  w1 : ℚ

/-- The four-element outcome vector (spec §3). -/
structure LakeOutcomes where
  max_P : ℚ
  utility : ℚ
  inertia : ℚ
  reliability : ℚ
deriving DecidableEq, Repr

/-- The output fields of the core model function, each with its projection
out of the `LakeOutcomes` record, in declaration order. -/
def lakeOutcomeProjs : List (String × (LakeOutcomes → ℚ)) :=
  [("max_P", LakeOutcomes.max_P),
   ("utility", LakeOutcomes.utility),
   ("inertia", LakeOutcomes.inertia),
   ("reliability", LakeOutcomes.reliability)]

/-- Clipping to a closed interval (spec §4.1 step 2c: releases are clipped to
[0, 0.1]). -/
def clip (x lo hi : ℚ) : ℚ := min (max x lo) hi

/-- Deterministic part of the stock inflow from recycling:
`X^q / (1 + X^q)` (spec §4.1 step 2c). -/
def recycling (x : ℚ) (q : ℕ) : ℚ := x ^ q / (1 + x ^ q)

/-- Indicator of a decidable proposition, as the rational 0 or 1. -/
def indicator (p : Prop) [Decidable p] : ℚ := if p then 1 else 0

/-- One replication of the time-stepped recurrence (spec §4.1 step 2):
`simulate u pol eps T` returns the trajectory `X_0 … X_T` (with `X_0 = 0`)
and the release sequence `a_0 … a_{T-1}`, where
`a_t = clip (pol history) 0 0.1` for the trajectory-so-far `history`, and
`X_{t+1} = X_t + a_t + X_t^q / (1 + X_t^q) - b * X_t + ε_t`. -/
def simulate (u : Uncertainties) (pol : List ℚ → ℚ) (eps : ℕ → ℚ) :
    ℕ → List ℚ × List ℚ
  | 0 => ([0], [])
  | Nat.succ t =>
    let p := simulate u pol eps t
    let x := p.1.getLastD 0
    let a := clip (pol p.1) 0 (1/10)
    let x2 := x + a + recycling x u.q - u.b * x + eps t
    (p.1 ++ [x2], p.2 ++ [a])

/-- All replications of one evaluation (spec §4.1 step 2): replication `i`
uses the noise sequence `noise i`. -/
def lakeRuns (u : Uncertainties) (pol : List ℚ → ℚ) (nsamples T : ℕ)
    (noise : ℕ → ℕ → ℚ) : List (List ℚ × List ℚ) :=
  (List.range nsamples).map (fun i => simulate u pol (noise i) T)

/-- The release sequences of all replications of one evaluation. -/
def lakeReleases (u : Uncertainties) (l : Levers) (rule : Levers → List ℚ → ℚ)
    (nsamples T : ℕ) (noise : ℕ → ℕ → ℚ) : List (List ℚ) :=
  (lakeRuns u (rule l) nsamples T noise).map Prod.snd

/-- Discounted economic benefit of one release sequence (spec §4.1 step 4):
`Σ_t alpha * a_t * delta^t`. -/
def utilityOf (alpha delta : ℚ) (rel : List ℚ) : ℚ :=
  ((List.range rel.length).map (fun t => alpha * rel.getD t 0 * delta ^ t)).sum

/-- Fraction of year-over-year release changes exceeding τ = 0.2
(spec §4.1 step 4): `(1/(T-1)) * Σ_{t=1}^{T-1} indicator(|a_t - a_{t-1}| > τ)`. -/
def inertiaOf (rel : List ℚ) : ℚ :=
  ((List.range (rel.length - 1)).map
      (fun t => indicator (1/5 < |rel.getD (t+1) 0 - rel.getD t 0|))).sum /
    ((rel.length - 1 : ℕ) : ℚ)

/-- Fraction of the `T` time steps of one trajectory with pollution below
`X_crit` (spec §4.1 step 4): `(1/T) * Σ_{t=0}^{T-1} indicator(X_t < X_crit)`. -/
def reliabilityOf (Xcrit : ℚ) (T : ℕ) (xs : List ℚ) : ℚ :=
  (((List.range T).map (fun t => indicator (xs.getD t 0 < Xcrit))).sum) / (T : ℚ)

/-- Mean of a list of rationals (the Monte-Carlo average across
replications). -/
def meanQ (l : List ℚ) : ℚ := l.sum / (l.length : ℚ)

/-- Modelled from the spec: the outcome computation of `lake_problem`
(spec §4.1 steps 3–4).  `max_P` is the maximum of the trajectory averaged
per time step across replications — literally `process_p` applied to the
matrix of trajectories; `reliability` is computed per replication and then
averaged across replications, as §4.1 prescribes.  The spec states the
release sequence is replication-invariant and computes `utility` and
`inertia` from "the" release sequence; here they are averaged across
replications, which coincides with the spec's formula whenever the sequence
is indeed invariant across replications. -/
def lakeProblem (u : Uncertainties) (l : Levers) (rule : Levers → List ℚ → ℚ)
    (alpha : ℚ) (nsamples T : ℕ) (Xcrit : ℚ) (noise : ℕ → ℕ → ℚ) :
    LakeOutcomes :=
  ⟨process_p ((lakeRuns u (rule l) nsamples T noise).map Prod.fst),
   meanQ (((lakeRuns u (rule l) nsamples T noise).map Prod.snd).map
     (utilityOf alpha u.delta)),
   meanQ (((lakeRuns u (rule l) nsamples T noise).map Prod.snd).map inertiaOf),
   meanQ (((lakeRuns u (rule l) nsamples T noise).map Prod.fst).map
     (reliabilityOf Xcrit T))⟩

/-- One step of a linear congruential generator on 31-bit state. -/
def lcg (s : ℕ) : ℕ := (1103515245 * s + 12345) % 2 ^ 31

/-- Iterated generator state, starting from a seed. -/
def lcgIter (seed : ℕ) : ℕ → ℕ
  | 0 => seed % 2 ^ 31
  | Nat.succ k => lcg (lcgIter seed k)

/-- Modelled from the spec: one natural-inflow draw as a deterministic
rational function of a generator state (the true draw is log-normal with the
given mean and standard deviation, which involves `exp`; only determinism
given the seed matters to the claims). -/
def inflowDraw (mean stdev : ℚ) (w : ℕ) : ℚ :=
  mean + stdev * ((w : ℚ) / 2 ^ 31 - 1 / 2)

/-- The noise function induced by a seed: replication `i`, time step `t`
reads the generator state at the pairing index of `(i, t)`. -/
def noiseFromSeed (mean stdev : ℚ) (seed : ℕ) (i t : ℕ) : ℚ :=
  inflowDraw mean stdev (lcgIter seed (Nat.pair i t + 1))

/-- One full seeded model evaluation: the outcome vector as a function of
(uncertainties, levers, constants) and the random seed. -/
def runLakeSeeded (u : Uncertainties) (l : Levers)
    (rule : Levers → List ℚ → ℚ) (alpha : ℚ) (nsamples T : ℕ) (Xcrit : ℚ)
    (seed : ℕ) : LakeOutcomes :=
  lakeProblem u l rule alpha nsamples T Xcrit (noiseFromSeed u.mean u.stdev seed)

/-! ## Name-resolution model of the script's top level (source lines 103–193)

The script's module-level statements are modelled by the names each statement
references and the names it binds; executing a statement whose references are
not all bound raises a `NameError` naming the first unbound reference.
Values are irrelevant to name resolution, so the environment is just the list
of bound names — whatever value the experiment run produces, it binds exactly
the name `results`.  The script is modelled as executed as a program, so the
`if __name__ == "__main__":` guard is true and its body is included; the
commented-out `SequentialEvaluator` block (the only place the name
`outcomes` is ever assigned) is not a statement and does not appear. -/

structure Stmt where
  refs : List String
  binds : List String
deriving DecidableEq, Repr

/-- Run a statement list: bind each statement's names in order, or stop with
the first `NameError` (the unbound name). -/
def runStmts : List Stmt → List String → Except String (List String)
  | [], env => Except.ok env
  | s :: rest, env =>
    match s.refs.filter (fun r => !(env.contains r)) with
    | [] => runStmts rest (env ++ s.binds)
    | r :: _ => Except.error r

/-- The experiment-run statement
`results = evaluator.perform_experiments(scenarios=1000, policies=4)`
(source line 165): it references `evaluator` and binds `results`. -/
def experimentRunStmt : Stmt := ⟨["evaluator"], ["results"]⟩

/-- The analysis statement `data = pd.DataFrame(outcomes)`
(source line 183): it references `pd` and `outcomes` and would bind `data`. -/
def dataFrameStmt : Stmt := ⟨["pd", "outcomes"], ["data"]⟩

/-- The script's executed top-level statements, in source order, as run as a
program (`__name__ == "__main__"` true, guard body included). -/
def lakeScriptMain : List Stmt :=
  [⟨[], ["lake_problem"]⟩,
   ⟨[], ["np"]⟩,
   ⟨[], ["RealParameter", "ScalarOutcome", "Constant", "Model"]⟩,
   ⟨["Model", "lake_problem"], ["model"]⟩,
   ⟨["model", "RealParameter"], []⟩,
   ⟨["model", "RealParameter"], []⟩,
   ⟨[], ["process_p"]⟩,
   ⟨["model", "ScalarOutcome"], []⟩,
   ⟨["model", "Constant"], []⟩,
   ⟨[], ["MultiprocessingEvaluator", "ema_logging", "perform_experiments"]⟩,
   ⟨["ema_logging"], []⟩,
   ⟨["MultiprocessingEvaluator", "model"], ["evaluator"]⟩,
   experimentRunStmt,
   ⟨[], ["pd"]⟩,
   dataFrameStmt,
   ⟨[], ["sns"]⟩,
   ⟨[], ["plt"]⟩,
   ⟨["sns", "data", "list", "outcomes"], []⟩,
   ⟨["plt"], []⟩]

/-- Python builtins referenced by the script (`list`), pre-bound before any
statement runs. -/
def pythonBuiltins : List String := ["list"]

/-! ## Sample inputs used by the witnesses of the spec-modelled claims -/

/-- An in-range uncertainty assignment: mean 0.02, stdev 0.002, b 0.2, q 2,
delta 0.95. -/
def sampleU : Uncertainties := ⟨1/50, 1/500, 1/5, 2, 19/20⟩

/-- An in-range lever assignment. -/
def sampleL : Levers := ⟨0, 0, 1, 1, 1/2⟩

/-- A concrete release rule: the constant raw release 0.05. -/
def sampleRule : Levers → List ℚ → ℚ := fun _ _ => 1/20

/-- A concrete (zero) noise function. -/
def sampleNoise : ℕ → ℕ → ℚ := fun _ _ => 0

/-! ## Helper lemmas about `np_max` and `np_mean_axis0` -/

theorem le_foldl_max (a : ℚ) (xs : List ℚ) : a ≤ xs.foldl max a := by
  induction xs generalizing a with
  | nil => simp
  | cons y ys ih =>
    calc a ≤ max a y := le_max_left a y
    _ ≤ ys.foldl max (max a y) := ih (max a y)
    _ = (y :: ys).foldl max a := rfl

theorem mem_le_foldl_max (xs : List ℚ) (a : ℚ) : ∀ x ∈ xs, x ≤ xs.foldl max a := by
  induction xs generalizing a with
  | nil => intro x hx; cases hx
  | cons y ys ih =>
    intro x hx
    rcases List.mem_cons.mp hx with h | h
    · subst h
      calc x ≤ max a x := le_max_right a x
      _ ≤ ys.foldl max (max a x) := le_foldl_max _ _
    · exact ih (max a y) x h

theorem le_np_max (l : List ℚ) (x : ℚ) (hx : x ∈ l) : x ≤ np_max l := by
  match l with
  | [] => cases hx
  | a :: xs =>
    rcases List.mem_cons.mp hx with h | h
    · exact h ▸ le_foldl_max a xs
    · exact mem_le_foldl_max xs a x h

theorem np_max_mem (l : List ℚ) (hl : l ≠ []) : np_max l ∈ l := by
  match l with
  | a :: xs =>
    induction xs generalizing a with
    | nil => simp [np_max]
    | cons y ys ih =>
      have h := ih (max a y) (by simp)
      have heq : np_max (a :: y :: ys) = np_max (max a y :: ys) := rfl
      rw [heq]
      rcases List.mem_cons.mp h with h2 | h2
      · rcases max_choice a y with hc | hc
        · rw [h2, hc]; exact List.mem_cons_self _ _
        · rw [h2, hc]; exact List.mem_cons_of_mem _ (List.mem_cons_self _ _)
      · exact List.mem_cons_of_mem _ (List.mem_cons_of_mem _ h2)

theorem np_max_le (l : List ℚ) (c : ℚ) (hl : l ≠ []) (h : ∀ x ∈ l, x ≤ c) :
    np_max l ≤ c :=
  h _ (np_max_mem l hl)

theorem np_mean_axis0_eq_colMeans (values : List (List ℚ)) (T : ℕ)
    (hne : values ≠ []) (hrect : ∀ r ∈ values, r.length = T) :
    np_mean_axis0 values = (List.range T).map (colMean values) := by
  match values with
  | v :: vs =>
    have hv : v.length = T := hrect v (List.mem_cons_self _ _)
    simp only [np_mean_axis0, List.headD_cons, hv]
    rfl

theorem getD_mem (r : List ℚ) (t : ℕ) (ht : t < r.length) : r.getD t 0 ∈ r := by
  induction r generalizing t with
  | nil => simp at ht
  | cons a rs ih =>
    cases t with
    | zero => simp
    | succ t =>
      simp only [List.getD_cons_succ]
      exact List.mem_cons_of_mem _ (ih t (by simpa [Nat.succ_lt_succ_iff] using ht))

theorem range_map_getD (r : List ℚ) :
    (List.range r.length).map (fun t => r.getD t 0) = r := by
  induction r with
  | nil => simp
  | cons a rs ih =>
    rw [List.length_cons, List.range_succ_eq_map, List.map_cons, List.map_map]
    simp only [Function.comp_def, List.getD_cons_zero, List.getD_cons_succ]
    rw [ih]

/-! ## Claim theorems -/

/-- C4: the script registers exactly five uncertain factors as continuous
real parameters, with exactly the declared names and ranges: `mean` over
[0.01, 0.05], `stdev` over [0.001, 0.005], `b` over [0.1, 0.45], `q` over
[2, 4.5], and `delta` over [0.93, 0.99]. -/
theorem uncertainties_registered_as_declared :
    model_uncertainties.length = 5 ∧
    model_uncertainties.map (fun p => (p.name, p.lower, p.upper)) =
      [("mean", 1/100, 1/20), ("stdev", 1/1000, 1/200), ("b", 1/10, 9/20),
       ("q", 2, 9/2), ("delta", 93/100, 99/100)] := by
  refine ⟨rfl, ?_⟩
  norm_num [model_uncertainties]

/-- C5: the script registers exactly five decision levers as continuous real
parameters with the declared names and ranges: `c1`, `c2` over [-2, 2],
`r1`, `r2` over [0, 2], and `w1` over [0, 1]. -/
theorem levers_registered_as_declared :
    model_levers.length = 5 ∧
    model_levers.map (fun p => (p.name, p.lower, p.upper)) =
      [("c1", -2, 2), ("c2", -2, 2), ("r1", 0, 2), ("r2", 0, 2), ("w1", 0, 1)] := by
  refine ⟨rfl, ?_⟩
  norm_num [model_levers]

/-- C6: the script registers exactly two named constants with the declared
default values: `alpha` equal to 0.41 and `nsamples` equal to 150. -/
theorem constants_registered_as_declared :
    model_constants.length = 2 ∧
    model_constants.map (fun c => (c.name, c.value)) =
      [("alpha", 41/100), ("nsamples", 150)] := by
  refine ⟨rfl, ?_⟩
  norm_num [model_constants]

/-- C7: the script registers exactly four named scalar outcomes — `max_P`,
`utility`, `inertia`, `reliability`, in that order — and each registered
outcome is bound (by the default rule, since no explicit binding is given)
to the core model function's output field of the same name. -/
theorem outcomes_registered_and_bound :
    model_outcomes.length = 4 ∧
    model_outcomes.map ScalarOutcome.name = lakeOutcomeProjs.map Prod.fst ∧
    model_outcomes.map ScalarOutcome.boundField = lakeOutcomeProjs.map Prod.fst ∧
    (∀ o ∈ model_outcomes, o.boundField = o.name) := by
  decide

/-- C8: run as a program, the script binds the experiment result to the name
`results` (and `outcomes` is bound by no executed statement), so the
analysis statement `data = pd.DataFrame(outcomes)` references the unbound
name `outcomes` and the execution raises a `NameError` there — whatever the
experiment run produced, since name resolution does not depend on the bound
values. -/
theorem analysis_block_raises_name_error :
    runStmts lakeScriptMain pythonBuiltins = Except.error "outcomes" ∧
    "results" ∈ experimentRunStmt.binds ∧
    (∀ s ∈ lakeScriptMain, "outcomes" ∉ s.binds) := by
  refine ⟨rfl, ?_, ?_⟩ <;> decide

/-- C1: on a non-empty rectangular two-dimensional array with replications
as rows, `process_p` computes the maximum over time steps `t` of the mean
over replications of column `t` — the mean over the replication axis is
taken first, then the maximum over time. -/
theorem process_p_is_max_of_col_means (values : List (List ℚ)) (T : ℕ)
    (hne : values ≠ []) (hT : 0 < T) (hrect : ∀ r ∈ values, r.length = T) :
    (∀ t < T, colMean values t ≤ process_p values) ∧
    (∃ t, t < T ∧ process_p values = colMean values t) := by
  have hrw : np_mean_axis0 values = (List.range T).map (colMean values) :=
    np_mean_axis0_eq_colMeans values T hne hrect
  have hne2 : (List.range T).map (colMean values) ≠ [] := by
    simp only [ne_eq, List.map_eq_nil_iff, List.range_eq_nil]
    omega
  constructor
  · intro t ht
    have hmem : colMean values t ∈ (List.range T).map (colMean values) :=
      List.mem_map.mpr ⟨t, List.mem_range.mpr ht, rfl⟩
    have hle := le_np_max _ _ hmem
    rw [process_p, hrw]
    exact hle
  · have hmem := np_max_mem _ hne2
    rcases List.mem_map.mp hmem with ⟨t, htr, heq⟩
    exact ⟨t, List.mem_range.mp htr, by rw [process_p, hrw, heq]⟩

/-- Witness for C1 on the concrete array [[1, 2], [3, 5]] (two replications,
two time steps): the column means are 2 and 7/2, and `process_p` returns
their maximum. -/
theorem process_p_is_max_of_col_means_witness :
    (([[1, 2], [3, 5]] : List (List ℚ)) ≠ [] ∧ 0 < 2 ∧
      (∀ r ∈ ([[1, 2], [3, 5]] : List (List ℚ)), r.length = 2)) ∧
    ((∀ t < 2, colMean [[1, 2], [3, 5]] t ≤ process_p [[1, 2], [3, 5]]) ∧
      (∃ t, t < 2 ∧ process_p [[1, 2], [3, 5]] = colMean [[1, 2], [3, 5]] t)) :=
  ⟨⟨by decide, by decide, by decide⟩,
   process_p_is_max_of_col_means [[1, 2], [3, 5]] 2 (by decide) (by decide)
     (by decide)⟩

/-- C9: `process_p` is invariant under reordering of the replications: on a
non-empty rectangular array, permuting the rows leaves its value unchanged. -/
theorem process_p_perm_invariant (values values2 : List (List ℚ)) (T : ℕ)
    (hne : values ≠ []) (hrect : ∀ r ∈ values, r.length = T)
    (hperm : values2.Perm values) :
    process_p values2 = process_p values := by
  have hne2 : values2 ≠ [] := by
    intro h
    rw [h] at hperm
    exact hne hperm.nil_eq.symm
  have hrect2 : ∀ r ∈ values2, r.length = T := fun r hr => hrect r (hperm.subset hr)
  have hcm : colMean values2 = colMean values := by
    funext t
    unfold colMean
    rw [(hperm.map (fun r => r.getD t 0)).sum_eq, hperm.length_eq]
  rw [process_p, process_p, np_mean_axis0_eq_colMeans values T hne hrect,
    np_mean_axis0_eq_colMeans values2 T hne2 hrect2, hcm]

/-- Witness for C9: swapping the two rows of [[1, 2], [3, 4]] leaves
`process_p` unchanged. -/
theorem process_p_perm_invariant_witness :
    (([[1, 2], [3, 4]] : List (List ℚ)) ≠ [] ∧
      (∀ r ∈ ([[1, 2], [3, 4]] : List (List ℚ)), r.length = 2) ∧
      ([[3, 4], [1, 2]] : List (List ℚ)).Perm [[1, 2], [3, 4]]) ∧
    process_p [[3, 4], [1, 2]] = process_p [[1, 2], [3, 4]] :=
  ⟨⟨by decide, by decide, by decide⟩,
   process_p_perm_invariant [[1, 2], [3, 4]] [[3, 4], [1, 2]] 2 (by decide)
     (by decide) (by decide)⟩

/-- C10: on a non-empty rectangular array, `process_p` (maximum of the
per-column means) is at most the rival aggregation (mean of the per-row
maxima), with equality whenever the array has exactly one row. -/
theorem process_p_le_avg_of_row_maxima (values : List (List ℚ)) (T : ℕ)
    (hne : values ≠ []) (hT : 0 < T) (hrect : ∀ r ∈ values, r.length = T) :
    process_p values ≤ avg_of_row_maxima values ∧
    (values.length = 1 → process_p values = avg_of_row_maxima values) := by
  have hlen : 0 < values.length := List.length_pos.mpr hne
  have hlenQ : (0 : ℚ) < (values.length : ℚ) := by exact_mod_cast hlen
  have hcol : ∀ t < T, colMean values t ≤ avg_of_row_maxima values := by
    intro t ht
    unfold colMean avg_of_row_maxima
    rw [div_le_div_iff_of_pos_right hlenQ]
    apply List.sum_le_sum
    intro r hr
    exact le_np_max r _ (getD_mem r t (by rw [hrect r hr]; exact ht))
  have hrw : np_mean_axis0 values = (List.range T).map (colMean values) :=
    np_mean_axis0_eq_colMeans values T hne hrect
  have hne2 : (List.range T).map (colMean values) ≠ [] := by
    simp only [ne_eq, List.map_eq_nil_iff, List.range_eq_nil]
    omega
  constructor
  · rw [process_p, hrw]
    apply np_max_le _ _ hne2
    intro x hx
    rcases List.mem_map.mp hx with ⟨t, htr, heq⟩
    exact heq ▸ hcol t (List.mem_range.mp htr)
  · intro h1
    rcases List.length_eq_one.mp h1 with ⟨r, rfl⟩
    unfold process_p np_mean_axis0 avg_of_row_maxima
    simp only [List.headD_cons, List.map_cons, List.map_nil, List.sum_cons,
      List.sum_nil, List.length_cons, List.length_nil, add_zero, zero_add,
      Nat.cast_one, div_one]
    rw [range_map_getD r]

/-- Witness for C10 on the one-row array [[1, 2]]: the bound holds and, the
array having exactly one row, so does equality. -/
theorem process_p_le_avg_of_row_maxima_witness :
    (([[1, 2]] : List (List ℚ)) ≠ [] ∧ 0 < 2 ∧
      (∀ r ∈ ([[1, 2]] : List (List ℚ)), r.length = 2)) ∧
    (process_p [[1, 2]] ≤ avg_of_row_maxima [[1, 2]] ∧
      (([[1, 2]] : List (List ℚ)).length = 1 →
        process_p [[1, 2]] = avg_of_row_maxima [[1, 2]])) :=
  ⟨⟨by decide, by decide, by decide⟩,
   process_p_le_avg_of_row_maxima [[1, 2]] 2 (by decide) (by decide) (by decide)⟩

/-! ## Helper lemmas for the spec-modelled core -/

theorem clip_mem (x lo hi : ℚ) (h : lo ≤ hi) :
    lo ≤ clip x lo hi ∧ clip x lo hi ≤ hi :=
  ⟨le_min (le_max_right x lo) h, min_le_right _ _⟩

theorem simulate_releases_mem (u : Uncertainties) (pol : List ℚ → ℚ)
    (eps : ℕ → ℚ) (T : ℕ) :
    ∀ a ∈ (simulate u pol eps T).2, 0 ≤ a ∧ a ≤ 1/10 := by
  induction T with
  | zero => intro a ha; simp [simulate] at ha
  | succ t ih =>
    intro a ha
    simp only [simulate] at ha
    rcases List.mem_append.mp ha with h | h
    · exact ih a h
    · have hx : a = clip (pol (simulate u pol eps t).1) 0 (1/10) := by
        simpa using h
      rw [hx]
      exact clip_mem _ _ _ (by norm_num)

theorem indicator_mem (p : Prop) [Decidable p] :
    0 ≤ indicator p ∧ indicator p ≤ 1 := by
  unfold indicator
  split <;> norm_num

theorem div_nat_mem_unit (s : ℚ) (m : ℕ) (h0 : 0 ≤ s) (h1 : s ≤ (m : ℚ)) :
    0 ≤ s / (m : ℚ) ∧ s / (m : ℚ) ≤ 1 := by
  rcases Nat.eq_zero_or_pos m with hm | hm
  · subst hm
    rw [Nat.cast_zero, div_zero]
    norm_num
  · have hmQ : (0 : ℚ) < (m : ℚ) := by exact_mod_cast hm
    exact ⟨div_nonneg h0 hmQ.le, (div_le_one hmQ).mpr h1⟩

theorem sum_indicator_map_mem (l : List ℕ) (f : ℕ → ℚ)
    (hf : ∀ t ∈ l, 0 ≤ f t ∧ f t ≤ 1) :
    0 ≤ (l.map f).sum ∧ (l.map f).sum ≤ (l.length : ℚ) := by
  constructor
  · apply List.sum_nonneg
    intro x hx
    rcases List.mem_map.mp hx with ⟨t, ht, rfl⟩
    exact (hf t ht).1
  · have h := List.sum_le_card_nsmul (l.map f) 1 (by
      intro x hx
      rcases List.mem_map.mp hx with ⟨t, ht, rfl⟩
      exact (hf t ht).2)
    simpa [nsmul_eq_mul] using h

theorem inertiaOf_mem_unit (rel : List ℚ) :
    0 ≤ inertiaOf rel ∧ inertiaOf rel ≤ 1 := by
  unfold inertiaOf
  have h := sum_indicator_map_mem (List.range (rel.length - 1))
    (fun t => indicator (1/5 < |rel.getD (t+1) 0 - rel.getD t 0|))
    (fun t _ => indicator_mem _)
  rw [List.length_range] at h
  exact div_nat_mem_unit _ _ h.1 h.2

theorem reliabilityOf_mem_unit (Xcrit : ℚ) (T : ℕ) (xs : List ℚ) :
    0 ≤ reliabilityOf Xcrit T xs ∧ reliabilityOf Xcrit T xs ≤ 1 := by
  unfold reliabilityOf
  have h := sum_indicator_map_mem (List.range T)
    (fun t => indicator (xs.getD t 0 < Xcrit))
    (fun t _ => indicator_mem _)
  rw [List.length_range] at h
  exact div_nat_mem_unit _ _ h.1 h.2

theorem meanQ_mem_unit (l : List ℚ) (h : ∀ x ∈ l, 0 ≤ x ∧ x ≤ 1) :
    0 ≤ meanQ l ∧ meanQ l ≤ 1 := by
  unfold meanQ
  apply div_nat_mem_unit
  · exact List.sum_nonneg (fun x hx => (h x hx).1)
  · have hle := List.sum_le_card_nsmul l 1 (fun x hx => (h x hx).2)
    simpa [nsmul_eq_mul] using hle

/-- C2: for every parameter set whose uncertainty and lever values lie in
the declared ranges (and whatever the release rule, noise, horizon and
threshold are), every computed release lies in [0, 0.1], and the `inertia`
and `reliability` outcomes of the evaluation lie in [0, 1] — no outcome
lies outside its structurally valid range. -/
theorem lake_outcomes_within_valid_ranges (u : Uncertainties) (l : Levers)
    (rule : Levers → List ℚ → ℚ) (alpha : ℚ) (nsamples T : ℕ) (Xcrit : ℚ)
    (noise : ℕ → ℕ → ℚ)
    (hmean : 1/100 ≤ u.mean ∧ u.mean ≤ 1/20)
    (hstdev : 1/1000 ≤ u.stdev ∧ u.stdev ≤ 1/200)
    (hb : 1/10 ≤ u.b ∧ u.b ≤ 9/20)
    (hq : 2 ≤ u.q ∧ (u.q : ℚ) ≤ 9/2)
    (hdelta : 93/100 ≤ u.delta ∧ u.delta ≤ 99/100)
    (hc1 : -2 ≤ l.c1 ∧ l.c1 ≤ 2) (hc2 : -2 ≤ l.c2 ∧ l.c2 ≤ 2)
    (hr1 : 0 ≤ l.r1 ∧ l.r1 ≤ 2) (hr2 : 0 ≤ l.r2 ∧ l.r2 ≤ 2)
    (hw1 : 0 ≤ l.w1 ∧ l.w1 ≤ 1) :
    (∀ rel ∈ lakeReleases u l rule nsamples T noise, ∀ a ∈ rel,
      0 ≤ a ∧ a ≤ 1/10) ∧
    (0 ≤ (lakeProblem u l rule alpha nsamples T Xcrit noise).inertia ∧
      (lakeProblem u l rule alpha nsamples T Xcrit noise).inertia ≤ 1) ∧
    (0 ≤ (lakeProblem u l rule alpha nsamples T Xcrit noise).reliability ∧
      (lakeProblem u l rule alpha nsamples T Xcrit noise).reliability ≤ 1) := by
  refine ⟨?_, ?_, ?_⟩
  · intro rel hrel a ha
    unfold lakeReleases lakeRuns at hrel
    rcases List.mem_map.mp hrel with ⟨run, hrun, hrl⟩
    rcases List.mem_map.mp hrun with ⟨i, _, hri⟩
    subst hri
    rw [← hrl] at ha
    exact simulate_releases_mem u (rule l) (noise i) T a ha
  · have hproj : (lakeProblem u l rule alpha nsamples T Xcrit noise).inertia =
        meanQ (((lakeRuns u (rule l) nsamples T noise).map Prod.snd).map
          inertiaOf) := rfl
    rw [hproj]
    apply meanQ_mem_unit
    intro x hx
    rcases List.mem_map.mp hx with ⟨rel, _, rfl⟩
    exact inertiaOf_mem_unit rel
  · have hproj : (lakeProblem u l rule alpha nsamples T Xcrit noise).reliability =
        meanQ (((lakeRuns u (rule l) nsamples T noise).map Prod.fst).map
          (reliabilityOf Xcrit T)) := rfl
    rw [hproj]
    apply meanQ_mem_unit
    intro x hx
    rcases List.mem_map.mp hx with ⟨xs, _, rfl⟩
    exact reliabilityOf_mem_unit Xcrit T xs

/-- Witness for C2 at the in-range sample parameters, one replication and a
two-step horizon. -/
theorem lake_outcomes_within_valid_ranges_witness :
    ((1/100 ≤ sampleU.mean ∧ sampleU.mean ≤ 1/20) ∧
     (1/1000 ≤ sampleU.stdev ∧ sampleU.stdev ≤ 1/200) ∧
     (1/10 ≤ sampleU.b ∧ sampleU.b ≤ 9/20) ∧
     (2 ≤ sampleU.q ∧ (sampleU.q : ℚ) ≤ 9/2) ∧
     (93/100 ≤ sampleU.delta ∧ sampleU.delta ≤ 99/100) ∧
     (-2 ≤ sampleL.c1 ∧ sampleL.c1 ≤ 2) ∧ (-2 ≤ sampleL.c2 ∧ sampleL.c2 ≤ 2) ∧
     (0 ≤ sampleL.r1 ∧ sampleL.r1 ≤ 2) ∧ (0 ≤ sampleL.r2 ∧ sampleL.r2 ≤ 2) ∧
     (0 ≤ sampleL.w1 ∧ sampleL.w1 ≤ 1)) ∧
    ((∀ rel ∈ lakeReleases sampleU sampleL sampleRule 1 2 sampleNoise,
        ∀ a ∈ rel, 0 ≤ a ∧ a ≤ 1/10) ∧
     (0 ≤ (lakeProblem sampleU sampleL sampleRule (41/100) 1 2 1
         sampleNoise).inertia ∧
       (lakeProblem sampleU sampleL sampleRule (41/100) 1 2 1
         sampleNoise).inertia ≤ 1) ∧
     (0 ≤ (lakeProblem sampleU sampleL sampleRule (41/100) 1 2 1
         sampleNoise).reliability ∧
       (lakeProblem sampleU sampleL sampleRule (41/100) 1 2 1
         sampleNoise).reliability ≤ 1)) :=
  ⟨⟨by norm_num [sampleU], by norm_num [sampleU], by norm_num [sampleU],
    by norm_num [sampleU], by norm_num [sampleU], by norm_num [sampleL],
    by norm_num [sampleL], by norm_num [sampleL], by norm_num [sampleL],
    by norm_num [sampleL]⟩,
   lake_outcomes_within_valid_ranges sampleU sampleL sampleRule (41/100) 1 2 1
     sampleNoise (by norm_num [sampleU]) (by norm_num [sampleU])
     (by norm_num [sampleU]) (by norm_num [sampleU]) (by norm_num [sampleU])
     (by norm_num [sampleL]) (by norm_num [sampleL]) (by norm_num [sampleL])
     (by norm_num [sampleL]) (by norm_num [sampleL])⟩

/-- C3: the seeded model evaluation is deterministic — the outcome vector is
a pure function of (uncertainties, levers, constants) and the seed, so two
runs of the same (uncertainty, lever) pair with `nsamples = 1` and the same
seed yield identical outcomes. -/
theorem lake_evaluation_deterministic (u1 u2 : Uncertainties) (l1 l2 : Levers)
    (rule : Levers → List ℚ → ℚ) (alpha : ℚ) (T : ℕ) (Xcrit : ℚ)
    (seed1 seed2 : ℕ) (hu : u1 = u2) (hl : l1 = l2) (hs : seed1 = seed2) :
    runLakeSeeded u1 l1 rule alpha 1 T Xcrit seed1 =
      runLakeSeeded u2 l2 rule alpha 1 T Xcrit seed2 := by
  subst hu
  subst hl
  subst hs
  rfl

/-- Witness for C3: two runs at the sample parameters with seed 42 agree. -/
theorem lake_evaluation_deterministic_witness :
    (sampleU = sampleU ∧ sampleL = sampleL ∧ (42 : ℕ) = 42) ∧
    runLakeSeeded sampleU sampleL sampleRule (41/100) 1 2 1 42 =
      runLakeSeeded sampleU sampleL sampleRule (41/100) 1 2 1 42 :=
  ⟨⟨rfl, rfl, rfl⟩,
   lake_evaluation_deterministic sampleU sampleU sampleL sampleL sampleRule
     (41/100) 2 1 42 42 rfl rfl rfl⟩

end LakeModel
